import Mathlib

/-!
Shallow embedding of the negotiation protocol and settlement engine of the
marketplace simulation (src/models/data_models.py, src/agents/base_agent.py,
src/negotiation/negotiation_nodes.py, src/negotiation/negotiation_engine.py,
src/market/marketplace.py, src/market/coordinator.py).

Python floats are modelled as rationals; the claims under study only involve
comparisons, additions, subtractions and a multiplication by 3/4, on which
rational arithmetic agrees with IEEE semantics for the concrete inputs used.
Free-text fields (messages, reasoning) are carried as plain strings; the
numeric formatting of the source messages is abstracted, but the points where
the source would raise a runtime exception while building a message
(formatting a missing price) are modelled explicitly by an `error` status,
mirroring how an exception unwinds to the `try/except` in
`NegotiationEngine.start_negotiation`.
-/

namespace Negotiation

/-- `NegotiationAction` enum of src/models/data_models.py. -/
inductive NegotiationAction where
  | MAKE_OFFER
  | ACCEPT
  | REJECT
  | COUNTER
  | WALK_AWAY
deriving DecidableEq, Repr

/-- `.value` of the Python `str`-enum. -/
def NegotiationAction.value : NegotiationAction → String
  | .MAKE_OFFER => "MAKE_OFFER"
  | .ACCEPT => "ACCEPT"
  | .REJECT => "REJECT"
  | .COUNTER => "COUNTER"
  | .WALK_AWAY => "WALK_AWAY"

/-- `Product` of src/models/data_models.py (immutable value object). -/
structure Product where
  name : String
  category : String
  base_market_value : ℚ
deriving DecidableEq, Repr

/-- `InventoryItem` of src/models/data_models.py (the `acquired_at`
timestamp is irrelevant to every claim and omitted). -/
structure InventoryItem where
  product : Product
  cost_basis : ℚ
deriving DecidableEq, Repr

/-- `Listing` of src/models/data_models.py (timestamp omitted). -/
structure Listing where
  listing_id : String
  seller_id : String
  product : Product
  listing_price : ℚ
  minimum_acceptable : ℚ
  reasoning : String
deriving DecidableEq, Repr

/-- `Transaction` of src/models/data_models.py (timestamp omitted). -/
structure Transaction where
  transaction_id : String
  buyer_id : String
  seller_id : String
  product : Product
  final_price : ℚ
  cost_basis : ℚ
  negotiation_rounds : ℕ
deriving DecidableEq, Repr

/-- `Transaction.profit` property. -/
def Transaction.profit (t : Transaction) : ℚ := t.final_price - t.cost_basis

/-- `Transaction.margin` property. -/
def Transaction.margin (t : Transaction) : ℚ := t.profit / t.cost_basis * 100

/-- `NegotiationMessage` of src/models/data_models.py (timestamp omitted). -/
structure NegotiationMessage where
  round_number : ℕ
  from_agent : String
  to_agent : String
  action : NegotiationAction
  price : Option ℚ
  message : String
deriving DecidableEq, Repr

/-- `NegotiationDecision` of src/models/data_models.py. -/
structure NegotiationDecision where
  action : NegotiationAction
  price : Option ℚ
  message : String
  reasoning : String
deriving DecidableEq, Repr

/-- Pydantic validation of `NegotiationDecision`: every present price is
positive (`price: Optional[float] = Field(None, gt=0)`) and a COUNTER carries
a price (`price_required_for_counter`).  In the source, a structured policy
output only becomes a `NegotiationDecision` object by passing this
validation; an invalid output raises inside the `try` and lands in the
fallback branch. -/
def decisionValid (d : NegotiationDecision) : Bool :=
  (match d.price with
   | some p => decide (0 < p)
   | none => true) &&
  (match d.action, d.price with
   | .COUNTER, none => false
   | _, _ => true)

/-- `AgentState` of src/models/data_models.py restricted to the fields the
negotiation core reads or writes (memory and statistics are untouched by the
claims). -/
structure AgentState where
  agent_id : String
  capital : ℚ
  inventory : List InventoryItem
deriving DecidableEq, Repr

/-- Session status, as the `status` literal of `NegotiationState` in
src/negotiation/negotiation_nodes.py, extended with `error` to model a
Python exception unwinding out of a node to the engine's `except` clause. -/
inductive Status where
  | active
  | accepted
  | rejected
  | walked_away
  | error
deriving DecidableEq, Repr

def statusString : Status → String
  | .active => "active"
  | .accepted => "accepted"
  | .rejected => "rejected"
  | .walked_away => "walked_away"
  | .error => "error"

/-- `NegotiationState` TypedDict of src/negotiation/negotiation_nodes.py.
`current_offer` is an `Option` because the buyer node stores
`decision.price` into it unconditionally, and that price can be `None`. -/
structure NegotiationState where
  negotiation_id : String
  listing : Listing
  buyer_id : String
  seller_id : String
  initial_offer : ℚ
  current_offer : Option ℚ
  current_round : ℕ
  history : List NegotiationMessage
  status : Status
  final_price : Option ℚ
  last_action : Option String
  last_message : String
deriving DecidableEq, Repr

/-- Seller decision policy (the LLM call in
`BaseAgent.evaluate_offer_as_seller`): given offer price, cost basis,
listing price, minimum acceptable, round number and history, returns a
structured decision, or `none` when the call raises or its output fails
validation. -/
def SellerPolicy : Type :=
  ℚ → ℚ → ℚ → ℚ → ℕ → List NegotiationMessage → Option NegotiationDecision

/-- Buyer decision policy (the LLM call in
`BaseAgent.evaluate_counter_as_buyer`): given counter price, the buyer's own
last offer, the listing, the seller id, round number and history. -/
def BuyerPolicy : Type :=
  ℚ → ℚ → Listing → String → ℕ → List NegotiationMessage → Option NegotiationDecision

/-- Fallback of `BaseAgent.evaluate_offer_as_seller` (src/agents/base_agent.py
lines 416-426): accept when the offer is strictly above the minimum,
otherwise reject. -/
def sellerFallback (offer_price minimum_acceptable : ℚ) : NegotiationDecision :=
  if minimum_acceptable < offer_price then
    { action := .ACCEPT, price := none, message := "",
      reasoning := "Fallback decision, offer meets minimum" }
  else
    { action := .REJECT, price := none, message := "",
      reasoning := "Fallback decision, offer does not meet minimum" }

/-- `BaseAgent.evaluate_offer_as_seller`: the policy output is used when it
is a validated decision, otherwise the fallback applies. -/
def evaluate_offer_as_seller (llm : Option NegotiationDecision)
    (offer_price minimum_acceptable : ℚ) : NegotiationDecision :=
  match llm with
  | some d => if decisionValid d then d else sellerFallback offer_price minimum_acceptable
  | none => sellerFallback offer_price minimum_acceptable

/-- Buyer-side counter validation of `BaseAgent.evaluate_counter_as_buyer`
(src/agents/base_agent.py lines 525-534): a COUNTER whose price is missing,
exceeds the buyer's capital, or is non-positive is overridden to WALK_AWAY
with no price. -/
def buyerValidate (capital : ℚ) (d : NegotiationDecision) : NegotiationDecision :=
  if d.action = .COUNTER then
    match d.price with
    | none => { d with action := .WALK_AWAY, price := none }
    | some p =>
      if capital < p then { d with action := .WALK_AWAY, price := none }
      else if p ≤ 0 then { d with action := .WALK_AWAY, price := none }
      else d
  else d

/-- The walk-away fallback decision of `BaseAgent.evaluate_counter_as_buyer`
(src/agents/base_agent.py lines 545-550). -/
def buyerFallback : NegotiationDecision :=
  { action := .WALK_AWAY, price := none, message := "",
    reasoning := "Fallback decision, evaluation error" }

/-- `BaseAgent.evaluate_counter_as_buyer`: a validated policy output passes
through the affordability validation; a failed call or invalid output walks
away. -/
def evaluate_counter_as_buyer (llm : Option NegotiationDecision)
    (capital : ℚ) : NegotiationDecision :=
  match llm with
  | some d => if decisionValid d then buyerValidate capital d else buyerFallback
  | none => buyerFallback

/-- First inventory item whose product name matches (the lookup loop of
`seller_evaluates_offer` and `_create_transaction`). -/
def findInventoryItem (inventory : List InventoryItem) (productName : String) :
    Option InventoryItem :=
  inventory.find? (fun item => item.product.name == productName)

/-- Agent registry: the `agents: Dict[str, BaseAgent]` of the engine, as a
total map from agent id to agent state. -/
def Agents : Type := String → AgentState

/-- Node `buyer_makes_initial_offer` of src/negotiation/negotiation_nodes.py.
A non-positive initial offer would fail the `gt=0` validation of
`NegotiationMessage` and unwind as an exception, modelled by `error`. -/
def buyer_makes_initial_offer (s : NegotiationState) : NegotiationState :=
  if s.initial_offer ≤ 0 then { s with status := .error }
  else
    let message : NegotiationMessage :=
      { round_number := s.current_round, from_agent := s.buyer_id,
        to_agent := s.seller_id, action := .MAKE_OFFER,
        price := some s.initial_offer,
        message := "I would like to offer for the product" }
    { s with history := s.history ++ [message],
             current_offer := some s.initial_offer,
             last_action := some "MAKE_OFFER",
             last_message := message.message }

/-- The decision-application part of node `seller_evaluates_offer`
(src/negotiation/negotiation_nodes.py lines 104-129).  In the source, the
default message of the catch-all branch formats `decision.price`; with a
missing price and an empty policy message that formatting raises, which the
model records as `error`. -/
def sellerApplyDecision (s : NegotiationState) (d : NegotiationDecision) :
    NegotiationState :=
  match d.action with
  | .ACCEPT =>
    let t := if d.message = "" then "I accepted your offer. Deal" else d.message
    { s with status := .accepted, final_price := s.current_offer,
             history := s.history ++
               [{ round_number := s.current_round, from_agent := s.seller_id,
                  to_agent := s.buyer_id, action := d.action, price := d.price,
                  message := t }],
             last_action := some "ACCEPT", last_message := t }
  | .REJECT =>
    let t := if d.message = "" then "Sorry, I cannot accept your offer. Deal" else d.message
    { s with status := .rejected,
             history := s.history ++
               [{ round_number := s.current_round, from_agent := s.seller_id,
                  to_agent := s.buyer_id, action := d.action, price := d.price,
                  message := t }],
             last_action := some "REJECT", last_message := t }
  | a =>
    if d.price = none ∧ d.message = "" then { s with status := .error }
    else
      let t := if d.message = "" then "I can do a counter price" else d.message
      let co := match d.price with
        | some p => some p
        | none => s.current_offer
      { s with current_offer := co,
               history := s.history ++
                 [{ round_number := s.current_round, from_agent := s.seller_id,
                    to_agent := s.buyer_id, action := a, price := d.price,
                    message := t }],
               last_action := some a.value, last_message := t }

/-- Node `seller_evaluates_offer` of src/negotiation/negotiation_nodes.py.
A missing inventory match terminates `rejected` before the policy is
invoked.  A missing `current_offer` would raise a `TypeError` inside
`evaluate_offer_as_seller` (the `potential_profit` subtraction) before the
policy call, modelled by `error`. -/
def seller_evaluates_offer (sp : SellerPolicy) (agents : Agents)
    (s : NegotiationState) : NegotiationState :=
  match findInventoryItem (agents s.seller_id).inventory s.listing.product.name with
  | none => { s with status := .rejected, last_action := some "REJECT" }
  | some item =>
    match s.current_offer with
    | none => { s with status := .error }
    | some op =>
      let d := evaluate_offer_as_seller
        (sp op item.cost_basis s.listing.listing_price
          s.listing.minimum_acceptable s.current_round s.history)
        op s.listing.minimum_acceptable
      sellerApplyDecision s d

/-- The buyer's last priced offer, scanned backwards over the history with
Python truthiness on the price (src/negotiation/negotiation_nodes.py lines
160-164); reads the state's history, buyer id and initial offer. -/
def buyerLastOffer (history : List NegotiationMessage) (buyer_id : String)
    (initial_offer : ℚ) : ℚ :=
  match history.reverse.find?
      (fun m => m.from_agent == buyer_id &&
        (match m.price with | some p => !(p == 0) | none => false)) with
  | some m => m.price.getD initial_offer
  | none => initial_offer

/-- The decision-application part of node `buyer_evaluates_counter`
(src/negotiation/negotiation_nodes.py lines 176-201).  The catch-all branch
stores `decision.price` into `current_offer` unconditionally; its default
message formats `decision.price` and raises when the price is missing and
the policy message empty, modelled by `error`. -/
def buyerApplyDecision (s : NegotiationState) (d : NegotiationDecision) :
    NegotiationState :=
  match d.action with
  | .ACCEPT =>
    let t := if d.message = "" then "I accepted your offer. Deal" else d.message
    { s with status := .accepted, final_price := s.current_offer,
             history := s.history ++
               [{ round_number := s.current_round, from_agent := s.buyer_id,
                  to_agent := s.seller_id, action := d.action, price := d.price,
                  message := t }],
             last_action := some "ACCEPT", last_message := t }
  | .WALK_AWAY =>
    let t := if d.message = "" then "I am going to pass" else d.message
    { s with status := .walked_away,
             history := s.history ++
               [{ round_number := s.current_round, from_agent := s.buyer_id,
                  to_agent := s.seller_id, action := d.action, price := d.price,
                  message := t }],
             last_action := some "WALK_AWAY", last_message := t }
  | a =>
    if d.price = none ∧ d.message = "" then { s with status := .error }
    else
      let t := if d.message = "" then "How about a counter price" else d.message
      { s with current_offer := d.price,
               history := s.history ++
                 [{ round_number := s.current_round, from_agent := s.buyer_id,
                    to_agent := s.seller_id, action := a, price := d.price,
                    message := t }],
               last_action := some a.value, last_message := t }

/-- Node `buyer_evaluates_counter` of src/negotiation/negotiation_nodes.py.
The round is incremented before anything else (line 145).  A missing
`current_offer` would raise while `evaluate_counter_as_buyer` formats the
counter price in its prompt, before the policy call, modelled by `error`. -/
def buyer_evaluates_counter (bp : BuyerPolicy) (agents : Agents)
    (s0 : NegotiationState) : NegotiationState :=
  let s := { s0 with current_round := s0.current_round + 1 }
  match s.current_offer with
  | none => { s with status := .error }
  | some cp =>
    let d := evaluate_counter_as_buyer
      (bp cp (buyerLastOffer s.history s.buyer_id s.initial_offer)
        s.listing s.seller_id s.current_round s.history)
      (agents s.buyer_id).capital
    buyerApplyDecision s d

/-- Node `check_max_rounds` of src/negotiation/negotiation_nodes.py. -/
def check_max_rounds (s : NegotiationState) : NegotiationState :=
  if 5 ≤ s.current_round then
    { s with status := .rejected, last_action := some "REJECT" }
  else s

/-- `NegotiationEngine._route_seller_decision`. -/
def route_seller_decision (s : NegotiationState) : String :=
  if s.last_action = some "ACCEPT" then "success"
  else if s.last_action = some "REJECT" then "failure"
  else "continue"

/-- `NegotiationEngine._route_buyer_decision`. -/
def route_buyer_decision (s : NegotiationState) : String :=
  if s.last_action = some "ACCEPT" then "success"
  else if s.last_action = some "WALK_AWAY" then "failure"
  else "continue"

/-- `NegotiationEngine._route_after_round_check`. -/
def route_after_round_check (s : NegotiationState) : String :=
  if s.status = .accepted then "success"
  else if s.status = .rejected ∨ s.status = .walked_away then "failure"
  else "continue"

/-- One compiled-graph execution from the `seller_evaluates` node on: the
states produced by each node visit, in order, following the conditional
edges of `NegotiationEngine.build_graph`.  An `error` status aborts the walk
(a raised exception unwinds out of `graph.invoke`).  The fuel argument only
bounds the recursion; five units always suffice because every loop
iteration increments the round and the round check stops at five. -/
def runTrace (sp : SellerPolicy) (bp : BuyerPolicy) (agents : Agents) :
    ℕ → NegotiationState → List NegotiationState
  | 0, _ => []
  | fuel + 1, s =>
    let s1 := seller_evaluates_offer sp agents s
    if s1.status = .error then [s1]
    else if route_seller_decision s1 ≠ "continue" then [s1]
    else
      let s2 := buyer_evaluates_counter bp agents s1
      if s2.status = .error then [s1, s2]
      else if route_buyer_decision s2 ≠ "continue" then [s1, s2]
      else
        let s3 := check_max_rounds s2
        if route_after_round_check s3 ≠ "continue" then [s1, s2, s3]
        else s1 :: s2 :: s3 :: runTrace sp bp agents fuel s3

/-- The final state of the loop beginning at `seller_evaluates`. -/
def runLoop (sp : SellerPolicy) (bp : BuyerPolicy) (agents : Agents)
    (fuel : ℕ) (s : NegotiationState) : NegotiationState :=
  (runTrace sp bp agents fuel s).getLastD s

/-- `graph.invoke` on the compiled workflow: the `buyer_offer` entry node
followed by the seller/buyer/round-check loop. -/
def graphInvoke (sp : SellerPolicy) (bp : BuyerPolicy) (agents : Agents)
    (s0 : NegotiationState) : NegotiationState :=
  let sb := buyer_makes_initial_offer s0
  if sb.status = .error then sb else runLoop sp bp agents 5 sb

/-- All observation points of one session: the state after every executed
node of the graph. -/
def fullTrace (sp : SellerPolicy) (bp : BuyerPolicy) (agents : Agents)
    (s0 : NegotiationState) : List NegotiationState :=
  let sb := buyer_makes_initial_offer s0
  if sb.status = .error then [sb] else sb :: runTrace sp bp agents 5 sb

/-- `Marketplace` of src/market/marketplace.py: the active-listing map as an
association list, the removed set and the append-only transaction log. -/
structure Marketplace where
  active_listings : List (String × Listing)
  removed_listings : List Listing
  completed_transactions : List Transaction
deriving DecidableEq, Repr

/-- `Marketplace.get_listing`. -/
def get_listing (m : Marketplace) (listing_id : String) : Option Listing :=
  (m.active_listings.find? (fun e => e.1 == listing_id)).map (fun e => e.2)

/-- `Marketplace.remove_listing` (idempotent; returns whether anything was
removed). -/
def remove_listing (m : Marketplace) (listing_id : String) :
    Marketplace × Bool :=
  match m.active_listings.find? (fun e => e.1 == listing_id) with
  | some e =>
    ({ m with
        active_listings := m.active_listings.filter (fun q => !(q.1 == listing_id)),
        removed_listings := m.removed_listings ++ [e.2] }, true)
  | none => (m, false)

/-- `Marketplace.record_transaction` (append-only). -/
def record_transaction (m : Marketplace) (t : Transaction) : Marketplace :=
  { m with completed_transactions := m.completed_transactions ++ [t] }

/-- `NegotiationEngine._create_transaction`: the cost basis comes from the
seller's matching inventory item, with `0.75 * listing_price` as the
degraded fallback. -/
def create_transaction (agents : Agents) (s : NegotiationState)
    (fp : ℚ) : Transaction :=
  let cost_basis :=
    match findInventoryItem (agents s.seller_id).inventory s.listing.product.name with
    | some item => item.cost_basis
    | none => s.listing.listing_price * (3 / 4)
  { transaction_id := "trx", buyer_id := s.buyer_id, seller_id := s.seller_id,
    product := s.listing.product, final_price := fp, cost_basis := cost_basis,
    negotiation_rounds := s.current_round }

/-- `NegotiationEngine._complete_transaction` restricted to the two parties:
moves the first matching inventory item from seller to buyer, then updates
capital by `buyer.capital += cost_basis; seller.capital -= cost_basis`
(memory and learning hooks do not touch capital or inventory and are
omitted).  Returns the updated buyer and seller. -/
def complete_transaction (t : Transaction) (buyer seller : AgentState) :
    AgentState × AgentState :=
  match seller.inventory.find? (fun item => item.product.name == t.product.name) with
  | some item =>
    let buyer1 := { buyer with inventory :=
      buyer.inventory ++
        [({ product := t.product, cost_basis := t.cost_basis } : InventoryItem)] }
    let seller1 := { seller with inventory := seller.inventory.erase item }
    ({ buyer1 with capital := buyer1.capital + t.cost_basis },
     { seller1 with capital := seller1.capital - t.cost_basis })
  | none =>
    ({ buyer with capital := buyer.capital + t.cost_basis },
     { seller with capital := seller.capital - t.cost_basis })

/-- The initial `NegotiationState` built by
`NegotiationEngine.start_negotiation`. -/
def initialState (buyer_id : String) (listing : Listing) (initial_offer : ℚ) :
    NegotiationState :=
  { negotiation_id := "neg", listing := listing, buyer_id := buyer_id,
    seller_id := listing.seller_id, initial_offer := initial_offer,
    current_offer := some initial_offer, current_round := 1, history := [],
    status := .active, final_price := none, last_action := none,
    last_message := "" }

/-- The dictionary returned by `NegotiationEngine.start_negotiation`. -/
structure StartResult where
  success : Bool
  transaction : Option Transaction
  final_price : Option ℚ
  rounds : ℕ
  reason : Option String
  history : List NegotiationMessage
deriving DecidableEq, Repr

/-- The result of the engine's `except` clause: a session-level exception
yields a failed result with zero rounds and an empty history. -/
def errorResult : StartResult :=
  { success := false, transaction := none, final_price := none, rounds := 0,
    reason := some "Error", history := [] }

/-- `NegotiationEngine.start_negotiation`: runs the graph from the initial
state; on `accepted` it creates the transaction, removes the listing,
records the transaction and settles both parties; otherwise the marketplace
and the parties are left unchanged.  An `accepted` state with no
`final_price` would fail the `Transaction` validation and unwind to the
`except` clause before the listing is removed. -/
def start_negotiation (sp : SellerPolicy) (bp : BuyerPolicy) (agents : Agents)
    (mkt : Marketplace) (buyer_id : String) (listing : Listing)
    (initial_offer : ℚ) : StartResult × Marketplace × Agents :=
  let final := graphInvoke sp bp agents (initialState buyer_id listing initial_offer)
  if final.status = .error then (errorResult, mkt, agents)
  else if final.status = .accepted then
    match final.final_price with
    | none => (errorResult, mkt, agents)
    | some fp =>
      let txn := create_transaction agents final fp
      let mkt1 := (remove_listing mkt listing.listing_id).1
      let mkt2 := record_transaction mkt1 txn
      let settled := complete_transaction txn (agents final.buyer_id) (agents final.seller_id)
      let agents1 : Agents := fun id =>
        if id = final.buyer_id then settled.1
        else if id = final.seller_id then settled.2
        else agents id
      ({ success := true, transaction := some txn, final_price := some fp,
         rounds := final.current_round, reason := none,
         history := final.history }, mkt2, agents1)
  else
    ({ success := false, transaction := none, final_price := none,
       rounds := final.current_round, reason := some (statusString final.status),
       history := final.history }, mkt, agents)

/-! ### Concrete instances used to exercise the development -/

def prodW : Product :=
  { name := "Laptop", category := "electronics", base_market_value := 100 }

def itemW : InventoryItem := { product := prodW, cost_basis := 60 }

def listingW : Listing :=
  { listing_id := "L1", seller_id := "S", product := prodW,
    listing_price := 100, minimum_acceptable := 80,
    reasoning := "fair market price" }

/-- Two agents: seller S holding the listed item, buyer B with capital 50. -/
def agentsW : Agents := fun id =>
  if id = "S" then { agent_id := "S", capital := 500, inventory := [itemW] }
  else { agent_id := "B", capital := 50, inventory := [] }

/-- Same two agents, but the seller inventory no longer holds the product. -/
def agentsNoInvW : Agents := fun id =>
  if id = "S" then { agent_id := "S", capital := 500, inventory := [] }
  else { agent_id := "B", capital := 50, inventory := [] }

def mktW : Marketplace :=
  { active_listings := [("L1", listingW)], removed_listings := [],
    completed_transactions := [] }

/-- A seller policy that always counters at 90. -/
def spCounterW : SellerPolicy := fun _ _ _ _ _ _ =>
  some { action := .COUNTER, price := some 90, message := "I can do 90",
         reasoning := "hold out for more" }

/-- A seller policy that always accepts. -/
def spAcceptW : SellerPolicy := fun _ _ _ _ _ _ =>
  some { action := .ACCEPT, price := none, message := "deal",
         reasoning := "good enough profit" }

/-- A buyer policy that always counters at 45. -/
def bpCounterW : BuyerPolicy := fun _ _ _ _ _ _ =>
  some { action := .COUNTER, price := some 45, message := "how about 45",
         reasoning := "stay within budget" }

/-- The accepting buyer decision. -/
def decAcceptW : NegotiationDecision :=
  { action := .ACCEPT, price := none, message := "ok",
    reasoning := "worth the price" }

/-- A buyer policy that always accepts. -/
def bpAcceptW : BuyerPolicy := fun _ _ _ _ _ _ => some decAcceptW

/-- A seller whose capital is below the cost basis of the item it sells. -/
def sellerPoorW : AgentState :=
  { agent_id := "S2", capital := 10,
    inventory := [{ product := prodW, cost_basis := 50 }] }

def buyerRichW : AgentState := { agent_id := "B2", capital := 100, inventory := [] }

def txnW : Transaction :=
  { transaction_id := "t1", buyer_id := "B2", seller_id := "S2",
    product := prodW, final_price := 90, cost_basis := 50,
    negotiation_rounds := 2 }

/-- A malformed policy output: a COUNTER with no price (rejected by the
pydantic validation of `NegotiationDecision`). -/
def badDecW : NegotiationDecision :=
  { action := .COUNTER, price := none, message := "",
    reasoning := "countering without a price" }

/-! ### Helper lemmas -/

theorem lastD_mem {α : Type _} : ∀ (l : List α) (d : α), l ≠ [] → l.getLastD d ∈ l
  | [], _, h => absurd rfl h
  | [a], d, _ => by simp [List.getLastD]
  | a :: b :: t, d, _ => by
    rw [List.getLastD_cons]
    exact List.mem_cons_of_mem a (lastD_mem (b :: t) a (by simp))

theorem runLoop_zero (sp : SellerPolicy) (bp : BuyerPolicy) (agents : Agents)
    (s : NegotiationState) : runLoop sp bp agents 0 s = s := rfl

theorem runLoop_succ (sp : SellerPolicy) (bp : BuyerPolicy) (agents : Agents)
    (fuel : ℕ) (s : NegotiationState) :
    runLoop sp bp agents (fuel + 1) s =
      (let s1 := seller_evaluates_offer sp agents s
       if s1.status = .error then s1
       else if route_seller_decision s1 ≠ "continue" then s1
       else
         let s2 := buyer_evaluates_counter bp agents s1
         if s2.status = .error then s2
         else if route_buyer_decision s2 ≠ "continue" then s2
         else
           let s3 := check_max_rounds s2
           if route_after_round_check s3 ≠ "continue" then s3
           else runLoop sp bp agents fuel s3) := by
  show (runTrace sp bp agents (fuel + 1) s).getLastD s = _
  rw [runTrace]
  dsimp only
  split
  · simp [List.getLastD]
  · split
    · simp [List.getLastD]
    · split
      · simp [List.getLastD_cons, List.getLastD]
      · split
        · simp [List.getLastD_cons, List.getLastD]
        · split
          · simp [List.getLastD_cons, List.getLastD]
          · simp only [List.getLastD_cons]
            rfl

theorem sellerApply_fields (s : NegotiationState) (d : NegotiationDecision) :
    (sellerApplyDecision s d).buyer_id = s.buyer_id ∧
    (sellerApplyDecision s d).seller_id = s.seller_id ∧
    (sellerApplyDecision s d).listing = s.listing ∧
    (sellerApplyDecision s d).initial_offer = s.initial_offer ∧
    (sellerApplyDecision s d).current_round = s.current_round := by
  obtain ⟨a, pr, m, r⟩ := d
  cases a <;> simp only [sellerApplyDecision] <;>
    first
      | simp
      | (split <;> simp)

theorem buyerApply_fields (s : NegotiationState) (d : NegotiationDecision) :
    (buyerApplyDecision s d).buyer_id = s.buyer_id ∧
    (buyerApplyDecision s d).seller_id = s.seller_id ∧
    (buyerApplyDecision s d).listing = s.listing ∧
    (buyerApplyDecision s d).initial_offer = s.initial_offer ∧
    (buyerApplyDecision s d).current_round = s.current_round := by
  obtain ⟨a, pr, m, r⟩ := d
  cases a <;> simp only [buyerApplyDecision] <;>
    first
      | simp
      | (split <;> simp)

theorem seller_fields (sp : SellerPolicy) (agents : Agents) (s : NegotiationState) :
    (seller_evaluates_offer sp agents s).buyer_id = s.buyer_id ∧
    (seller_evaluates_offer sp agents s).seller_id = s.seller_id ∧
    (seller_evaluates_offer sp agents s).listing = s.listing ∧
    (seller_evaluates_offer sp agents s).initial_offer = s.initial_offer ∧
    (seller_evaluates_offer sp agents s).current_round = s.current_round := by
  unfold seller_evaluates_offer
  split
  · simp
  · split
    · simp
    · exact sellerApply_fields s _

theorem buyer_fields (bp : BuyerPolicy) (agents : Agents) (s : NegotiationState) :
    (buyer_evaluates_counter bp agents s).buyer_id = s.buyer_id ∧
    (buyer_evaluates_counter bp agents s).seller_id = s.seller_id ∧
    (buyer_evaluates_counter bp agents s).listing = s.listing ∧
    (buyer_evaluates_counter bp agents s).initial_offer = s.initial_offer ∧
    (buyer_evaluates_counter bp agents s).current_round = s.current_round + 1 := by
  unfold buyer_evaluates_counter
  dsimp only
  split
  · simp
  · exact buyerApply_fields _ _

theorem check_fields (s : NegotiationState) :
    (check_max_rounds s).buyer_id = s.buyer_id ∧
    (check_max_rounds s).seller_id = s.seller_id ∧
    (check_max_rounds s).listing = s.listing ∧
    (check_max_rounds s).initial_offer = s.initial_offer ∧
    (check_max_rounds s).current_round = s.current_round ∧
    (check_max_rounds s).current_offer = s.current_offer := by
  unfold check_max_rounds
  split <;> simp

theorem check_cases (s : NegotiationState) :
    ((check_max_rounds s).status = .rejected ∧ 5 ≤ s.current_round) ∨
    (check_max_rounds s = s ∧ s.current_round < 5) := by
  unfold check_max_rounds
  split
  · exact Or.inl ⟨rfl, by omega⟩
  · exact Or.inr ⟨rfl, by omega⟩

theorem offer_fields (s : NegotiationState) :
    (buyer_makes_initial_offer s).buyer_id = s.buyer_id ∧
    (buyer_makes_initial_offer s).seller_id = s.seller_id ∧
    (buyer_makes_initial_offer s).listing = s.listing ∧
    (buyer_makes_initial_offer s).initial_offer = s.initial_offer ∧
    (buyer_makes_initial_offer s).current_round = s.current_round := by
  unfold buyer_makes_initial_offer
  split <;> simp

theorem sellerApply_accepted (s : NegotiationState) (d : NegotiationDecision)
    (hs : s.status = .active)
    (h : (sellerApplyDecision s d).status = .accepted) :
    (sellerApplyDecision s d).final_price = (sellerApplyDecision s d).current_offer := by
  obtain ⟨a, pr, m, r⟩ := d
  cases a
  case ACCEPT => rfl
  case REJECT => simp [sellerApplyDecision] at h
  all_goals
    simp only [sellerApplyDecision] at h ⊢
  all_goals
    split at h
  all_goals simp_all

theorem buyerApply_accepted (s : NegotiationState) (d : NegotiationDecision)
    (hs : s.status = .active)
    (h : (buyerApplyDecision s d).status = .accepted) :
    (buyerApplyDecision s d).final_price = (buyerApplyDecision s d).current_offer := by
  obtain ⟨a, pr, m, r⟩ := d
  cases a
  case ACCEPT => rfl
  case WALK_AWAY => simp [buyerApplyDecision] at h
  all_goals
    simp only [buyerApplyDecision] at h ⊢
  all_goals
    split at h
  all_goals simp_all

theorem sellerApply_continue_status (s : NegotiationState) (d : NegotiationDecision)
    (he : (sellerApplyDecision s d).status ≠ .error)
    (hc : route_seller_decision (sellerApplyDecision s d) = "continue") :
    (sellerApplyDecision s d).status = s.status := by
  obtain ⟨a, pr, m, r⟩ := d
  cases a
  case ACCEPT => simp [sellerApplyDecision, route_seller_decision] at hc
  case REJECT => simp [sellerApplyDecision, route_seller_decision] at hc
  all_goals
    simp only [sellerApplyDecision] at he ⊢
  all_goals
    split
  any_goals rfl
  all_goals simp_all

theorem buyerApply_continue_status (s : NegotiationState) (d : NegotiationDecision)
    (he : (buyerApplyDecision s d).status ≠ .error)
    (hc : route_buyer_decision (buyerApplyDecision s d) = "continue") :
    (buyerApplyDecision s d).status = s.status := by
  obtain ⟨a, pr, m, r⟩ := d
  cases a
  case ACCEPT => simp [buyerApplyDecision, route_buyer_decision] at hc
  case WALK_AWAY => simp [buyerApplyDecision, route_buyer_decision] at hc
  all_goals
    simp only [buyerApplyDecision] at he ⊢
  all_goals
    split
  any_goals rfl
  all_goals simp_all

theorem seller_accepted (sp : SellerPolicy) (agents : Agents) (s : NegotiationState)
    (hs : s.status = .active)
    (h : (seller_evaluates_offer sp agents s).status = .accepted) :
    (seller_evaluates_offer sp agents s).final_price =
      (seller_evaluates_offer sp agents s).current_offer := by
  revert h
  unfold seller_evaluates_offer
  split
  · intro h; simp at h
  · split
    · intro h; simp at h
    · intro h; exact sellerApply_accepted _ _ hs h

theorem buyer_accepted (bp : BuyerPolicy) (agents : Agents) (s : NegotiationState)
    (hs : s.status = .active)
    (h : (buyer_evaluates_counter bp agents s).status = .accepted) :
    (buyer_evaluates_counter bp agents s).final_price =
      (buyer_evaluates_counter bp agents s).current_offer := by
  revert h
  unfold buyer_evaluates_counter
  dsimp only
  split
  · intro h; simp at h
  · intro h; exact buyerApply_accepted _ _ hs h

theorem seller_continue_status (sp : SellerPolicy) (agents : Agents) (s : NegotiationState)
    (he : (seller_evaluates_offer sp agents s).status ≠ .error)
    (hc : route_seller_decision (seller_evaluates_offer sp agents s) = "continue") :
    (seller_evaluates_offer sp agents s).status = s.status := by
  revert he hc
  unfold seller_evaluates_offer
  split
  · intro he hc; simp [route_seller_decision] at hc
  · split
    · intro he hc; exact absurd rfl he
    · intro he hc; exact sellerApply_continue_status _ _ he hc

theorem buyer_continue_status (bp : BuyerPolicy) (agents : Agents) (s : NegotiationState)
    (he : (buyer_evaluates_counter bp agents s).status ≠ .error)
    (hc : route_buyer_decision (buyer_evaluates_counter bp agents s) = "continue") :
    (buyer_evaluates_counter bp agents s).status = s.status := by
  revert he hc
  unfold buyer_evaluates_counter
  dsimp only
  split
  · intro he hc; exact absurd rfl he
  · intro he hc; exact buyerApply_continue_status _ _ he hc

theorem offer_status (s : NegotiationState)
    (h : (buyer_makes_initial_offer s).status ≠ .error) :
    (buyer_makes_initial_offer s).status = s.status ∧
    (buyer_makes_initial_offer s).current_offer = some s.initial_offer := by
  by_cases h0 : s.initial_offer ≤ 0
  · exact absurd (by simp [buyer_makes_initial_offer, h0]) h
  · simp [buyer_makes_initial_offer, h0]

theorem check_continue (s2 : NegotiationState)
    (h : route_after_round_check (check_max_rounds s2) = "continue") :
    check_max_rounds s2 = s2 ∧ s2.current_round < 5 := by
  rcases check_cases s2 with ⟨hst, _⟩ | ⟨heq, hr⟩
  · exfalso
    simp [route_after_round_check, hst] at h
  · exact ⟨heq, hr⟩

theorem trace_round_bounds (sp : SellerPolicy) (bp : BuyerPolicy) (agents : Agents) :
    ∀ (fuel : ℕ) (s : NegotiationState), 1 ≤ s.current_round → s.current_round ≤ 4 →
      ∀ s' ∈ runTrace sp bp agents fuel s,
        1 ≤ s'.current_round ∧ s'.current_round ≤ 5 := by
  intro fuel
  induction fuel with
  | zero =>
    intro s _ _ s' hs'
    simp [runTrace] at hs'
  | succ fuel ih =>
    intro s h1 h4 s' hs'
    have hr1 : (seller_evaluates_offer sp agents s).current_round = s.current_round :=
      (seller_fields sp agents s).2.2.2.2
    have hr2 : (buyer_evaluates_counter bp agents (seller_evaluates_offer sp agents s)).current_round
        = s.current_round + 1 := by
      rw [(buyer_fields bp agents _).2.2.2.2, hr1]
    have hr3 : (check_max_rounds (buyer_evaluates_counter bp agents
        (seller_evaluates_offer sp agents s))).current_round = s.current_round + 1 := by
      rw [(check_fields _).2.2.2.2.1, hr2]
    rw [runTrace] at hs'
    dsimp only at hs'
    split at hs'
    · simp only [List.mem_singleton] at hs'
      subst hs'; omega
    · split at hs'
      · simp only [List.mem_singleton] at hs'
        subst hs'; omega
      · split at hs'
        · simp only [List.mem_cons, List.not_mem_nil, or_false] at hs'
          rcases hs' with h | h <;> (subst h; omega)
        · split at hs'
          · simp only [List.mem_cons, List.not_mem_nil, or_false] at hs'
            rcases hs' with h | h <;> (subst h; omega)
          · split at hs'
            · simp only [List.mem_cons, List.not_mem_nil, or_false] at hs'
              rcases hs' with h | h | h <;> (subst h; omega)
            · simp only [List.mem_cons] at hs'
              rcases hs' with h | h | h | h
              · subst h; omega
              · subst h; omega
              · subst h; omega
              · rename_i hcont
                have hc : route_after_round_check (check_max_rounds
                    (buyer_evaluates_counter bp agents (seller_evaluates_offer sp agents s)))
                    = "continue" := by
                  by_contra hne
                  exact hcont hne
                obtain ⟨heq, hlt⟩ := check_continue _ hc
                refine ih _ ?_ ?_ s' h
                · rw [heq, hr2]; omega
                · rw [heq, hr2]; omega

theorem runLoop_round_bounds (sp : SellerPolicy) (bp : BuyerPolicy) (agents : Agents)
    (fuel : ℕ) (s : NegotiationState) (h1 : 1 ≤ s.current_round)
    (h4 : s.current_round ≤ 4) :
    1 ≤ (runLoop sp bp agents fuel s).current_round ∧
      (runLoop sp bp agents fuel s).current_round ≤ 5 := by
  by_cases hnil : runTrace sp bp agents fuel s = []
  · unfold runLoop
    rw [hnil]
    simp only [List.getLastD]
    exact ⟨h1, by omega⟩
  · exact trace_round_bounds sp bp agents fuel s h1 h4 _ (lastD_mem _ _ hnil)

theorem graphInvoke_round_bounds (sp : SellerPolicy) (bp : BuyerPolicy) (agents : Agents)
    (s0 : NegotiationState) (h : s0.current_round = 1) :
    1 ≤ (graphInvoke sp bp agents s0).current_round ∧
      (graphInvoke sp bp agents s0).current_round ≤ 5 := by
  have hb : (buyer_makes_initial_offer s0).current_round = 1 := by
    rw [(offer_fields s0).2.2.2.2, h]
  unfold graphInvoke
  dsimp only
  split
  · rw [hb]; omega
  · exact runLoop_round_bounds sp bp agents 5 _ (by omega) (by omega)

/-! ### Claims -/

/-- C1: for every negotiation session, the round counter stays within
bounds: `current_round` is initialised to 1 at session start, is left
unchanged by the seller-evaluation and round-check steps and incremented
only by the buyer-evaluation step, every observation point of the session
satisfies `1 ≤ current_round ≤ 5`, and the session result never reports
more than 5 rounds. -/
theorem C1_round_bounds (sp : SellerPolicy) (bp : BuyerPolicy) (agents : Agents)
    (mkt : Marketplace) (bid : String) (listing : Listing) (offer : ℚ) :
    (initialState bid listing offer).current_round = 1 ∧
    (∀ s, (seller_evaluates_offer sp agents s).current_round = s.current_round) ∧
    (∀ s, (check_max_rounds s).current_round = s.current_round) ∧
    (∀ s, (buyer_evaluates_counter bp agents s).current_round = s.current_round + 1) ∧
    (∀ s' ∈ fullTrace sp bp agents (initialState bid listing offer),
      1 ≤ s'.current_round ∧ s'.current_round ≤ 5) ∧
    (start_negotiation sp bp agents mkt bid listing offer).1.rounds ≤ 5 := by
  have hb : (buyer_makes_initial_offer (initialState bid listing offer)).current_round = 1 :=
    (offer_fields _).2.2.2.2
  refine ⟨rfl, fun s => (seller_fields sp agents s).2.2.2.2,
    fun s => (check_fields s).2.2.2.2.1,
    fun s => (buyer_fields bp agents s).2.2.2.2, ?_, ?_⟩
  · intro s' hs'
    unfold fullTrace at hs'
    dsimp only at hs'
    split at hs'
    · simp only [List.mem_singleton] at hs'
      subst hs'; omega
    · simp only [List.mem_cons] at hs'
      rcases hs' with h | h
      · subst h; omega
      · exact trace_round_bounds sp bp agents 5 _ (by omega) (by omega) s' h
  · have hg := graphInvoke_round_bounds sp bp agents (initialState bid listing offer) rfl
    unfold start_negotiation
    dsimp only
    split
    · simp [errorResult]
    · split
      · split
        · simp [errorResult]
        · dsimp only
          omega
      · dsimp only
        omega

/-- C1 witness: the bounds instantiated on a concrete round-exhausting
session. -/
theorem C1_round_bounds_witness :
    (1 ≤ (buyer_makes_initial_offer (initialState "B" listingW 40)).current_round ∧
      (buyer_makes_initial_offer (initialState "B" listingW 40)).current_round ≤ 5) ∧
    (start_negotiation spCounterW bpCounterW agentsW mktW "B" listingW 40).1.rounds ≤ 5 := by
  have h := C1_round_bounds spCounterW bpCounterW agentsW mktW "B" listingW 40
  refine ⟨h.2.2.2.2.1 _ ?_, h.2.2.2.2.2⟩
  unfold fullTrace
  dsimp only
  split
  · exact List.mem_singleton.mpr rfl
  · exact List.mem_cons_self _ _

theorem runLoop_accepted (sp : SellerPolicy) (bp : BuyerPolicy) (agents : Agents) :
    ∀ (fuel : ℕ) (s : NegotiationState), s.status = .active →
      (runLoop sp bp agents fuel s).status = .accepted →
      (runLoop sp bp agents fuel s).final_price =
        (runLoop sp bp agents fuel s).current_offer := by
  intro fuel
  induction fuel with
  | zero =>
    intro s hs h
    rw [runLoop_zero] at h
    rw [hs] at h
    exact absurd h (by simp)
  | succ fuel ih =>
    intro s hs h
    revert h
    rw [runLoop_succ]
    dsimp only
    split
    · rename_i herr
      intro h
      rw [herr] at h
      exact absurd h (by simp)
    · rename_i herr
      split
      · intro h
        exact seller_accepted sp agents s hs h
      · rename_i hroute
        rw [not_not] at hroute
        have hs1 : (seller_evaluates_offer sp agents s).status = .active := by
          rw [seller_continue_status sp agents s herr hroute]
          exact hs
        split
        · rename_i herr3
          intro h
          rw [herr3] at h
          exact absurd h (by simp)
        · rename_i herr3
          split
          · intro h
            exact buyer_accepted bp agents _ hs1 h
          · rename_i hroute3
            rw [not_not] at hroute3
            have hs2 : (buyer_evaluates_counter bp agents
                (seller_evaluates_offer sp agents s)).status = .active := by
              rw [buyer_continue_status bp agents _ herr3 hroute3]
              exact hs1
            split
            · intro h
              rcases check_cases (buyer_evaluates_counter bp agents
                  (seller_evaluates_offer sp agents s)) with ⟨hst, _⟩ | ⟨heq, _⟩
              · rw [hst] at h
                exact absurd h (by simp)
              · rw [heq] at h
                rw [hs2] at h
                exact absurd h (by simp)
            · rename_i hroute4
              rw [not_not] at hroute4
              obtain ⟨heq, _⟩ := check_continue _ hroute4
              intro h
              refine ih _ ?_ h
              rw [heq]
              exact hs2

/-- C3: for every session that terminates with status `accepted` (whether
the seller accepts at SELLER_EVALUATE or the buyer accepts at
BUYER_EVALUATE), `final_price` equals the `current_offer` captured at the
transition to `accepted` — and that offer is still the `current_offer` of
the terminal state, since the accepting step never modifies the offer after
recording it. -/
theorem C3_final_price_eq_offer (sp : SellerPolicy) (bp : BuyerPolicy)
    (agents : Agents) (bid : String) (listing : Listing) (offer : ℚ) :
    (graphInvoke sp bp agents (initialState bid listing offer)).status = .accepted →
    (graphInvoke sp bp agents (initialState bid listing offer)).final_price =
      (graphInvoke sp bp agents (initialState bid listing offer)).current_offer := by
  unfold graphInvoke
  dsimp only
  split
  · rename_i herr
    intro h
    rw [herr] at h
    exact absurd h (by simp)
  · rename_i hne
    intro h
    have hsb := (offer_status _ hne).1
    exact runLoop_accepted sp bp agents 5 _ (by rw [hsb]; rfl) h

/-- C3 witness: a concrete session accepted by the buyer at price 90. -/
theorem C3_final_price_eq_offer_witness :
    (graphInvoke spCounterW bpAcceptW agentsW (initialState "B" listingW 40)).status
        = .accepted ∧
    (graphInvoke spCounterW bpAcceptW agentsW (initialState "B" listingW 40)).final_price =
      (graphInvoke spCounterW bpAcceptW agentsW (initialState "B" listingW 40)).current_offer :=
  ⟨by decide, C3_final_price_eq_offer spCounterW bpAcceptW agentsW "B" listingW 40 (by decide)⟩

theorem sellerApply_append (s : NegotiationState) (d : NegotiationDecision) :
    (∃ m, (sellerApplyDecision s d).history = s.history ++ [m]) ∨
    ((sellerApplyDecision s d).status = .error ∧
      (sellerApplyDecision s d).history = s.history) := by
  obtain ⟨a, pr, m, r⟩ := d
  cases a <;> simp only [sellerApplyDecision]
  case ACCEPT => exact Or.inl ⟨_, rfl⟩
  case REJECT => exact Or.inl ⟨_, rfl⟩
  all_goals
    split
  all_goals
    first
      | exact Or.inr ⟨rfl, rfl⟩
      | exact Or.inl ⟨_, rfl⟩

theorem buyerApply_append (s : NegotiationState) (d : NegotiationDecision) :
    (∃ m, (buyerApplyDecision s d).history = s.history ++ [m]) ∨
    ((buyerApplyDecision s d).status = .error ∧
      (buyerApplyDecision s d).history = s.history) := by
  obtain ⟨a, pr, m, r⟩ := d
  cases a <;> simp only [buyerApplyDecision]
  case ACCEPT => exact Or.inl ⟨_, rfl⟩
  case WALK_AWAY => exact Or.inl ⟨_, rfl⟩
  all_goals
    split
  all_goals
    first
      | exact Or.inr ⟨rfl, rfl⟩
      | exact Or.inl ⟨_, rfl⟩

/-- C5: when the buyer's policy answers COUNTER at BUYER_EVALUATE, a
proposed price that is missing, above the buyer's available capital, or
non-positive makes the engine override the decision to WALK_AWAY (the
recorded message carries no price, the stored offer is untouched) and the
session terminates `walked_away`; otherwise `current_offer` is set to the
counter price and the session is routed to the round check. -/
theorem C5_buyer_counter_validation (agents : Agents) (s : NegotiationState)
    (d : NegotiationDecision) (cp : ℚ) (hcp : s.current_offer = some cp)
    (hact : d.action = .COUNTER) :
    ((d.price = none ∨
        (∃ p, d.price = some p ∧ ((agents s.buyer_id).capital < p ∨ p ≤ 0))) →
      (buyer_evaluates_counter (fun _ _ _ _ _ _ => some d) agents s).status = .walked_away ∧
      (buyer_evaluates_counter (fun _ _ _ _ _ _ => some d) agents s).last_action
          = some "WALK_AWAY" ∧
      ((buyer_evaluates_counter (fun _ _ _ _ _ _ => some d) agents s).history.getLast?).map
          NegotiationMessage.price = some none ∧
      (buyer_evaluates_counter (fun _ _ _ _ _ _ => some d) agents s).current_offer
          = s.current_offer ∧
      route_buyer_decision (buyer_evaluates_counter (fun _ _ _ _ _ _ => some d) agents s)
          = "failure") ∧
    (∀ p, d.price = some p → 0 < p → ¬ (agents s.buyer_id).capital < p →
      (buyer_evaluates_counter (fun _ _ _ _ _ _ => some d) agents s).current_offer = some p ∧
      (buyer_evaluates_counter (fun _ _ _ _ _ _ => some d) agents s).status = s.status ∧
      route_buyer_decision (buyer_evaluates_counter (fun _ _ _ _ _ _ => some d) agents s)
          = "continue") := by
  obtain ⟨a, pr, m, r⟩ := d
  dsimp only at hact
  subst hact
  constructor
  · intro hbad
    have hwalk : ∃ v : NegotiationDecision, v.action = .WALK_AWAY ∧ v.price = none ∧
        evaluate_counter_as_buyer (some ⟨.COUNTER, pr, m, r⟩)
          (agents s.buyer_id).capital = v := by
      rcases hbad with hnone | ⟨p, hp, hc | hle⟩
      · dsimp only at hnone
        subst hnone
        exact ⟨buyerFallback, rfl, rfl, by simp [evaluate_counter_as_buyer, decisionValid]⟩
      · dsimp only at hp
        subst hp
        by_cases h0 : (0 : ℚ) < p
        · refine ⟨⟨.WALK_AWAY, none, m, r⟩, rfl, rfl, ?_⟩
          simp [evaluate_counter_as_buyer, decisionValid, h0, buyerValidate, hc]
        · exact ⟨buyerFallback, rfl, rfl,
            by simp [evaluate_counter_as_buyer, decisionValid, h0]⟩
      · dsimp only at hp
        subst hp
        exact ⟨buyerFallback, rfl, rfl,
          by simp [evaluate_counter_as_buyer, decisionValid, not_lt.mpr hle]⟩
    obtain ⟨v, hva, hvp, hv⟩ := hwalk
    unfold buyer_evaluates_counter
    dsimp only
    simp only [hcp]
    rw [hv]
    obtain ⟨va, vpr, vm, vr⟩ := v
    dsimp only at hva hvp
    subst hva
    subst hvp
    simp only [buyerApplyDecision]
    simp [List.getLast?_concat, route_buyer_decision, hcp]
  · intro p hp h0 hcap
    dsimp only at hp
    subst hp
    unfold buyer_evaluates_counter
    dsimp only
    simp only [hcp]
    have hv : evaluate_counter_as_buyer (some ⟨.COUNTER, some p, m, r⟩)
        (agents s.buyer_id).capital = ⟨.COUNTER, some p, m, r⟩ := by
      simp [evaluate_counter_as_buyer, decisionValid, h0, buyerValidate, hcap,
        not_lt.mpr (le_of_lt h0)]
    rw [hv]
    simp only [buyerApplyDecision]
    split
    · rename_i hg
      exact absurd hg.1 (by simp)
    · exact ⟨rfl, rfl, rfl⟩

/-- C5 witness: a concrete unaffordable counter (price 90 against capital
50) is overridden to WALK_AWAY, and a concrete affordable counter (45)
proceeds to the round check. -/
theorem C5_buyer_counter_validation_witness :
    ((buyer_evaluates_counter
        (fun _ _ _ _ _ _ => some ⟨.COUNTER, some 90, "m", "over budget"⟩) agentsW
        (buyer_makes_initial_offer (initialState "B" listingW 40))).status = .walked_away ∧
      (buyer_evaluates_counter
        (fun _ _ _ _ _ _ => some ⟨.COUNTER, some 45, "m", "in budget"⟩) agentsW
        (buyer_makes_initial_offer (initialState "B" listingW 40))).current_offer = some 45) := by
  constructor
  · exact ((C5_buyer_counter_validation agentsW _ ⟨.COUNTER, some 90, "m", "over budget"⟩
      40 (by decide) rfl).1 (Or.inr ⟨90, rfl, Or.inl (by decide)⟩)).1
  · exact ((C5_buyer_counter_validation agentsW _ ⟨.COUNTER, some 45, "m", "in budget"⟩
      40 (by decide) rfl).2 45 rfl (by decide) (by decide)).1

/-- C6: the settlement as implemented violates the no-negative-capital
invariant: `_complete_transaction` debits the seller by the cost basis with
no solvency check, so a seller whose capital (10) is below the cost basis
(50) ends the settlement at capital -40. -/
theorem C6_settlement_negative_capital :
    sellerPoorW.capital < txnW.cost_basis ∧
    (complete_transaction txnW buyerRichW sellerPoorW).2.capital = -40 ∧
    (complete_transaction txnW buyerRichW sellerPoorW).2.capital < 0 := by
  have h : (complete_transaction txnW buyerRichW sellerPoorW).2.capital
      = (10 : ℚ) - 50 := rfl
  refine ⟨?_, ?_, ?_⟩
  · show (10 : ℚ) < 50
    norm_num
  · rw [h]; norm_num
  · rw [h]; norm_num

/-- C7: the reference settlement adds the transaction's `cost_basis` to the
buyer's capital and subtracts that same `cost_basis` from the seller's, and
the agreed `final_price` plays no role whatsoever in the settlement's
effect on the two parties. -/
theorem C7_settlement_direction (t : Transaction) (buyer seller : AgentState) :
    (complete_transaction t buyer seller).1.capital = buyer.capital + t.cost_basis ∧
    (complete_transaction t buyer seller).2.capital = seller.capital - t.cost_basis ∧
    (∀ fp : ℚ, complete_transaction { t with final_price := fp } buyer seller =
      complete_transaction t buyer seller) := by
  refine ⟨?_, ?_, fun fp => ?_⟩
  · unfold complete_transaction
    split <;> rfl
  · unfold complete_transaction
    split <;> rfl
  · unfold complete_transaction
    dsimp only

/-- C8 counterexample: at the boundary where the offer equals the listing's
minimum acceptable price, the seller fallback returns REJECT, not the
ACCEPT the claim requires. -/
theorem C8_counterexample :
    (80 : ℚ) ≥ 80 ∧
    (evaluate_offer_as_seller none 80 80).action = .REJECT ∧
    ¬ (evaluate_offer_as_seller none 80 80).action = .ACCEPT := by decide

/-- C8 (amended): on policy failure the engine applies the defined fallback
instead of propagating — the seller fallback accepts exactly when the offer
is strictly greater than the minimum acceptable (an offer equal to the
minimum is rejected), the buyer fallback walks away with no price, and a
malformed policy output (one failing the decision validation) is treated
the same as a failed call. -/
theorem C8_fallback_behavior (offer minimum cap : ℚ) :
    ((evaluate_offer_as_seller none offer minimum).action = .ACCEPT ↔ minimum < offer) ∧
    ((evaluate_offer_as_seller none offer minimum).action = .REJECT ↔ offer ≤ minimum) ∧
    (evaluate_counter_as_buyer none cap).action = .WALK_AWAY ∧
    (evaluate_counter_as_buyer none cap).price = none ∧
    (∀ d, decisionValid d = false →
      evaluate_offer_as_seller (some d) offer minimum =
        evaluate_offer_as_seller none offer minimum ∧
      evaluate_counter_as_buyer (some d) cap = evaluate_counter_as_buyer none cap) := by
  refine ⟨?_, ?_, rfl, rfl, fun d hd => ?_⟩
  · by_cases hlt : minimum < offer
    · simp [evaluate_offer_as_seller, sellerFallback, hlt]
    · simp [evaluate_offer_as_seller, sellerFallback, hlt]
  · by_cases hlt : minimum < offer
    · simp [evaluate_offer_as_seller, sellerFallback, hlt, not_le.mpr hlt]
    · simp [evaluate_offer_as_seller, sellerFallback, hlt, not_lt.mp hlt]
  · constructor <;> simp [evaluate_offer_as_seller, evaluate_counter_as_buyer, hd]

/-- C8 witness: the fallback equivalences instantiated at offer 81,
minimum 80, capital 50 and the malformed price-less COUNTER decision. -/
theorem C8_fallback_behavior_witness :
    decisionValid badDecW = false ∧
    evaluate_offer_as_seller (some badDecW) 81 80 = evaluate_offer_as_seller none 81 80 ∧
    evaluate_counter_as_buyer (some badDecW) 50 = evaluate_counter_as_buyer none 50 :=
  ⟨by decide, ((C8_fallback_behavior 81 80 50).2.2.2.2 badDecW (by decide)).1,
    ((C8_fallback_behavior 81 80 50).2.2.2.2 badDecW (by decide)).2⟩

/-- C9: when the seller's inventory has no item matching the listing's
product at SELLER_EVALUATE, the session terminates `rejected` immediately
(the step is routed to failure) and the seller's decision policy is never
invoked — the step's outcome is identical for any two policies. -/
theorem C9_missing_inventory (sp sp2 : SellerPolicy) (agents : Agents)
    (s : NegotiationState)
    (h : findInventoryItem (agents s.seller_id).inventory s.listing.product.name = none) :
    seller_evaluates_offer sp agents s =
      { s with status := .rejected, last_action := some "REJECT" } ∧
    route_seller_decision (seller_evaluates_offer sp agents s) = "failure" ∧
    seller_evaluates_offer sp agents s = seller_evaluates_offer sp2 agents s := by
  have e1 : seller_evaluates_offer sp agents s =
      { s with status := .rejected, last_action := some "REJECT" } := by
    unfold seller_evaluates_offer
    rw [h]
  have e2 : seller_evaluates_offer sp2 agents s =
      { s with status := .rejected, last_action := some "REJECT" } := by
    unfold seller_evaluates_offer
    rw [h]
  refine ⟨e1, ?_, e1.trans e2.symm⟩
  rw [e1]
  simp [route_seller_decision]

/-- C9 witness: a concrete seller with an empty inventory rejects without
consulting the policy (accepting and countering policies coincide). -/
theorem C9_missing_inventory_witness :
    findInventoryItem (agentsNoInvW "S").inventory listingW.product.name = none ∧
    (seller_evaluates_offer spAcceptW agentsNoInvW
      (buyer_makes_initial_offer (initialState "B" listingW 40))).status = .rejected ∧
    seller_evaluates_offer spAcceptW agentsNoInvW
        (buyer_makes_initial_offer (initialState "B" listingW 40)) =
      seller_evaluates_offer spCounterW agentsNoInvW
        (buyer_makes_initial_offer (initialState "B" listingW 40)) := by
  have h := C9_missing_inventory spAcceptW spCounterW agentsNoInvW
    (buyer_makes_initial_offer (initialState "B" listingW 40)) (by decide)
  exact ⟨by decide, by rw [h.1], h.2.2⟩

/-- C10 counterexample: the missing-inventory early-termination path of
SELLER_EVALUATE returns without appending any message — the step ends the
session `rejected` with the history still empty. -/
theorem C10_counterexample :
    (seller_evaluates_offer spAcceptW agentsNoInvW
        (initialState "B" listingW 40)).history = [] ∧
    (initialState "B" listingW 40).history = [] ∧
    (seller_evaluates_offer spAcceptW agentsNoInvW
        (initialState "B" listingW 40)).status = .rejected := by decide

/-- C10 (amended): every role-transition step appends exactly one message
to the history on every path on which it completes normally; the
missing-inventory early termination of SELLER_EVALUATE appends none, and a
path that aborts with a session-level exception appends none. -/
theorem C10_one_message_per_step (sp : SellerPolicy) (bp : BuyerPolicy)
    (agents : Agents) (s : NegotiationState) :
    ((∃ m, (buyer_makes_initial_offer s).history = s.history ++ [m]) ∨
      ((buyer_makes_initial_offer s).status = .error ∧
        (buyer_makes_initial_offer s).history = s.history)) ∧
    ((∃ m, (seller_evaluates_offer sp agents s).history = s.history ++ [m]) ∨
      ((seller_evaluates_offer sp agents s).status = .error ∧
        (seller_evaluates_offer sp agents s).history = s.history) ∨
      (findInventoryItem (agents s.seller_id).inventory s.listing.product.name = none ∧
        (seller_evaluates_offer sp agents s).history = s.history)) ∧
    ((∃ m, (buyer_evaluates_counter bp agents s).history = s.history ++ [m]) ∨
      ((buyer_evaluates_counter bp agents s).status = .error ∧
        (buyer_evaluates_counter bp agents s).history = s.history)) := by
  refine ⟨?_, ?_, ?_⟩
  · unfold buyer_makes_initial_offer
    split
    · exact Or.inr ⟨rfl, rfl⟩
    · exact Or.inl ⟨_, rfl⟩
  · unfold seller_evaluates_offer
    split
    · rename_i hfind
      exact Or.inr (Or.inr ⟨hfind, rfl⟩)
    · split
      · exact Or.inr (Or.inl ⟨rfl, rfl⟩)
      · rcases sellerApply_append s _ with h | h
        · exact Or.inl h
        · exact Or.inr (Or.inl h)
  · unfold buyer_evaluates_counter
    dsimp only
    split
    · exact Or.inr ⟨rfl, rfl⟩
    · rcases buyerApply_append _ _ with h | h
      · exact Or.inl h
      · exact Or.inr h

theorem sellerApply_counter (s : NegotiationState) (d : NegotiationDecision) (p : ℚ)
    (ha : d.action = .COUNTER) (hp : d.price = some p) :
    (sellerApplyDecision s d).status = s.status ∧
    (sellerApplyDecision s d).current_offer = some p ∧
    (sellerApplyDecision s d).last_action = some "COUNTER" := by
  obtain ⟨a, pr, m, r⟩ := d
  dsimp only at ha hp
  subst ha
  subst hp
  simp only [sellerApplyDecision]
  split
  · rename_i hg
    exact absurd hg.1 (by simp)
  · exact ⟨rfl, rfl, rfl⟩

theorem buyerApply_counter (s : NegotiationState) (d : NegotiationDecision) (p : ℚ)
    (ha : d.action = .COUNTER) (hp : d.price = some p) :
    (buyerApplyDecision s d).status = s.status ∧
    (buyerApplyDecision s d).current_offer = some p ∧
    (buyerApplyDecision s d).last_action = some "COUNTER" := by
  obtain ⟨a, pr, m, r⟩ := d
  dsimp only at ha hp
  subst ha
  subst hp
  simp only [buyerApplyDecision]
  split
  · rename_i hg
    exact absurd hg.1 (by simp)
  · exact ⟨rfl, rfl, rfl⟩

theorem seller_counter_step (sp : SellerPolicy) (agents : Agents)
    (s : NegotiationState) (item : InventoryItem) (c : ℚ) (d : NegotiationDecision)
    (p : ℚ)
    (hfind : findInventoryItem (agents s.seller_id).inventory s.listing.product.name
      = some item)
    (hc : s.current_offer = some c)
    (hd : sp c item.cost_basis s.listing.listing_price s.listing.minimum_acceptable
      s.current_round s.history = some d)
    (ha : d.action = .COUNTER) (hp : d.price = some p) (h0 : 0 < p) :
    (seller_evaluates_offer sp agents s).status = s.status ∧
    (seller_evaluates_offer sp agents s).current_offer = some p ∧
    route_seller_decision (seller_evaluates_offer sp agents s) = "continue" := by
  have hvalid : decisionValid d = true := by
    obtain ⟨a2, pr2, m2, r2⟩ := d
    dsimp only at ha hp
    subst ha
    subst hp
    simp [decisionValid, h0]
  have e : seller_evaluates_offer sp agents s = sellerApplyDecision s d := by
    unfold seller_evaluates_offer
    simp only [hfind, hc, hd, evaluate_offer_as_seller, hvalid, if_true]
  rcases sellerApply_counter s d p ha hp with ⟨h1, h2, h3⟩
  rw [e]
  exact ⟨h1, h2, by simp [route_seller_decision, h3]⟩

theorem buyer_counter_step (bp : BuyerPolicy) (agents : Agents)
    (s : NegotiationState) (c : ℚ) (d : NegotiationDecision) (p : ℚ)
    (hc : s.current_offer = some c)
    (hd : bp c (buyerLastOffer s.history s.buyer_id s.initial_offer)
      s.listing s.seller_id (s.current_round + 1) s.history = some d)
    (ha : d.action = .COUNTER) (hp : d.price = some p) (h0 : 0 < p)
    (hcap : p ≤ (agents s.buyer_id).capital) :
    (buyer_evaluates_counter bp agents s).status = s.status ∧
    (buyer_evaluates_counter bp agents s).current_offer = some p ∧
    route_buyer_decision (buyer_evaluates_counter bp agents s) = "continue" := by
  have hvalid : decisionValid d = true := by
    obtain ⟨a2, pr2, m2, r2⟩ := d
    dsimp only at ha hp
    subst ha
    subst hp
    simp [decisionValid, h0]
  have hval : evaluate_counter_as_buyer (some d) (agents s.buyer_id).capital = d := by
    simp only [evaluate_counter_as_buyer, hvalid, if_true, buyerValidate, ha, hp]
    simp [not_lt.mpr hcap, not_le.mpr h0]
  have e : buyer_evaluates_counter bp agents s =
      buyerApplyDecision { s with current_round := s.current_round + 1 } d := by
    unfold buyer_evaluates_counter
    dsimp only
    simp only [hc]
    rw [hd, hval]
  rcases buyerApply_counter { s with current_round := s.current_round + 1 } d p ha hp
    with ⟨h1, h2, h3⟩
  rw [e]
  exact ⟨h1, h2, by simp [route_buyer_decision, h3]⟩

theorem C2_loop (sp : SellerPolicy) (bp : BuyerPolicy) (agents : Agents)
    (bid : String) (listing : Listing)
    (hinv : ∃ item, findInventoryItem (agents listing.seller_id).inventory
      listing.product.name = some item)
    (hsp : ∀ op cb lp ma r h, ∃ d p, sp op cb lp ma r h = some d ∧
      d.action = .COUNTER ∧ d.price = some p ∧ 0 < p)
    (hbp : ∀ cp lo li sid r h, ∃ d p, bp cp lo li sid r h = some d ∧
      d.action = .COUNTER ∧ d.price = some p ∧ 0 < p ∧ p ≤ (agents bid).capital) :
    ∀ (fuel : ℕ) (s : NegotiationState), s.status = .active → s.buyer_id = bid →
      s.seller_id = listing.seller_id → s.listing = listing →
      (∃ c, s.current_offer = some c) → 1 ≤ s.current_round →
      s.current_round ≤ 4 → 5 ≤ s.current_round + fuel →
      (runLoop sp bp agents fuel s).status = .rejected ∧
      (runLoop sp bp agents fuel s).current_round = 5 := by
  intro fuel
  induction fuel with
  | zero =>
    intro s _ _ _ _ _ h4 h5
    omega
  | succ fuel ih =>
    rintro s hact hbid hsell hlist ⟨c, hc⟩ h1 h4 h5
    obtain ⟨item, hitem⟩ := hinv
    have hfind : findInventoryItem (agents s.seller_id).inventory
        s.listing.product.name = some item := by
      rw [hsell, hlist]
      exact hitem
    obtain ⟨d1, p1, hd1, ha1, hp1, h01⟩ :=
      hsp c item.cost_basis s.listing.listing_price s.listing.minimum_acceptable
        s.current_round s.history
    obtain ⟨hs1status, hs1offer, hs1route⟩ :=
      seller_counter_step sp agents s item c d1 p1 hfind hc hd1 ha1 hp1 h01
    obtain ⟨f1bid, f1sid, f1list, _, f1round⟩ := seller_fields sp agents s
    obtain ⟨d2, p2, hd2, ha2, hp2, h02, hcap2⟩ :=
      hbp p1 (buyerLastOffer (seller_evaluates_offer sp agents s).history
          (seller_evaluates_offer sp agents s).buyer_id
          (seller_evaluates_offer sp agents s).initial_offer)
        (seller_evaluates_offer sp agents s).listing
        (seller_evaluates_offer sp agents s).seller_id
        ((seller_evaluates_offer sp agents s).current_round + 1)
        (seller_evaluates_offer sp agents s).history
    have hcap2' : p2 ≤ (agents (seller_evaluates_offer sp agents s).buyer_id).capital := by
      rw [f1bid, hbid]
      exact hcap2
    obtain ⟨hs2status, hs2offer, hs2route⟩ :=
      buyer_counter_step bp agents (seller_evaluates_offer sp agents s) p1 d2 p2
        hs1offer hd2 ha2 hp2 h02 hcap2'
    obtain ⟨f2bid, f2sid, f2list, _, f2round⟩ :=
      buyer_fields bp agents (seller_evaluates_offer sp agents s)
    have hs2act : (buyer_evaluates_counter bp agents
        (seller_evaluates_offer sp agents s)).status = .active := by
      rw [hs2status, hs1status, hact]
    rw [runLoop_succ]
    dsimp only
    rw [if_neg (by rw [hs1status, hact]; simp)]
    rw [if_neg (by rw [hs1route]; simp)]
    rw [if_neg (by rw [hs2act]; simp)]
    rw [if_neg (by rw [hs2route]; simp)]
    by_cases h5r : 5 ≤ (buyer_evaluates_counter bp agents
        (seller_evaluates_offer sp agents s)).current_round
    · have hchk : check_max_rounds (buyer_evaluates_counter bp agents
          (seller_evaluates_offer sp agents s)) =
          { buyer_evaluates_counter bp agents (seller_evaluates_offer sp agents s) with
            status := .rejected, last_action := some "REJECT" } := by
        unfold check_max_rounds
        rw [if_pos h5r]
      rw [hchk]
      rw [if_pos (by simp [route_after_round_check])]
      rw [f2round, f1round] at h5r
      refine ⟨rfl, ?_⟩
      dsimp only
      rw [f2round, f1round]
      omega
    · have hchk : check_max_rounds (buyer_evaluates_counter bp agents
          (seller_evaluates_offer sp agents s)) =
          buyer_evaluates_counter bp agents (seller_evaluates_offer sp agents s) := by
        unfold check_max_rounds
        rw [if_neg h5r]
      rw [hchk]
      rw [if_neg (by simp [route_after_round_check, hs2act])]
      rw [f2round, f1round] at h5r
      refine ih (buyer_evaluates_counter bp agents (seller_evaluates_offer sp agents s))
        hs2act ?_ ?_ ?_ ⟨p2, hs2offer⟩ ?_ ?_ ?_
      · rw [f2bid, f1bid, hbid]
      · rw [f2sid, f1sid, hsell]
      · rw [f2list, f1list, hlist]
      · rw [f2round, f1round]
        omega
      · rw [f2round, f1round]
        omega
      · rw [f2round, f1round]
        omega

/-- C2: when the seller's policy always counters (with a positive price)
and the buyer's policy always counters (with a positive affordable price),
the round check forces the session to terminal status `rejected` exactly
as `current_round` reaches 5, regardless of the pending buyer counter; the
result reports failure with reason `rejected`, no transaction is created,
the parties are untouched and the marketplace — in particular the listing's
membership in the active set — is unchanged. -/
theorem C2_round_exhaustion (sp : SellerPolicy) (bp : BuyerPolicy) (agents : Agents)
    (mkt : Marketplace) (bid : String) (listing : Listing) (offer : ℚ) (l : Listing)
    (hoff : 0 < offer)
    (hinv : ∃ item, findInventoryItem (agents listing.seller_id).inventory
      listing.product.name = some item)
    (hsp : ∀ op cb lp ma r h, ∃ d p, sp op cb lp ma r h = some d ∧
      d.action = .COUNTER ∧ d.price = some p ∧ 0 < p)
    (hbp : ∀ cp lo li sid r h, ∃ d p, bp cp lo li sid r h = some d ∧
      d.action = .COUNTER ∧ d.price = some p ∧ 0 < p ∧ p ≤ (agents bid).capital) :
    (start_negotiation sp bp agents mkt bid listing offer).1.success = false ∧
    (start_negotiation sp bp agents mkt bid listing offer).1.reason = some "rejected" ∧
    (start_negotiation sp bp agents mkt bid listing offer).1.rounds = 5 ∧
    (start_negotiation sp bp agents mkt bid listing offer).1.transaction = none ∧
    (start_negotiation sp bp agents mkt bid listing offer).2.1 = mkt ∧
    (start_negotiation sp bp agents mkt bid listing offer).2.2 = agents ∧
    (get_listing mkt listing.listing_id = some l →
      get_listing (start_negotiation sp bp agents mkt bid listing offer).2.1
        listing.listing_id = some l) := by
  have h0 : ¬ (initialState bid listing offer).initial_offer ≤ 0 := not_le.mpr hoff
  have hsbstat : (buyer_makes_initial_offer (initialState bid listing offer)).status
      = .active := by
    unfold buyer_makes_initial_offer
    rw [if_neg h0]
    rfl
  have hsboffer : (buyer_makes_initial_offer (initialState bid listing offer)).current_offer
      = some offer := by
    unfold buyer_makes_initial_offer
    rw [if_neg h0]
    rfl
  obtain ⟨obid, osid, olist, _, oround⟩ := offer_fields (initialState bid listing offer)
  have hloop := C2_loop sp bp agents bid listing hinv hsp hbp 5
    (buyer_makes_initial_offer (initialState bid listing offer)) hsbstat
    (by rw [obid]; rfl) (by rw [osid]; rfl) (by rw [olist]; rfl)
    ⟨offer, hsboffer⟩ (by rw [oround]; rfl)
    (by rw [oround]; dsimp only [initialState]; omega)
    (by rw [oround]; dsimp only [initialState]; omega)
  have hgraph : graphInvoke sp bp agents (initialState bid listing offer) =
      runLoop sp bp agents 5 (buyer_makes_initial_offer (initialState bid listing offer)) := by
    unfold graphInvoke
    dsimp only
    rw [if_neg (by rw [hsbstat]; simp)]
  have hfs : (graphInvoke sp bp agents (initialState bid listing offer)).status
      = .rejected := by
    rw [hgraph]
    exact hloop.1
  have hfr : (graphInvoke sp bp agents (initialState bid listing offer)).current_round
      = 5 := by
    rw [hgraph]
    exact hloop.2
  unfold start_negotiation
  dsimp only
  rw [if_neg (by rw [hfs]; simp), if_neg (by rw [hfs]; simp)]
  refine ⟨rfl, ?_, ?_, rfl, rfl, rfl, fun hl => hl⟩
  · dsimp only
    rw [hfs]
    rfl
  · dsimp only
    exact hfr

/-- C2 witness: a concrete session in which the seller always counters 90
and the buyer always counters 45 is force-rejected at round 5 with the
listing still active. -/
theorem C2_round_exhaustion_witness :
    (start_negotiation spCounterW bpCounterW agentsW mktW "B" listingW 40).1.success
        = false ∧
    (start_negotiation spCounterW bpCounterW agentsW mktW "B" listingW 40).1.reason
        = some "rejected" ∧
    (start_negotiation spCounterW bpCounterW agentsW mktW "B" listingW 40).1.rounds = 5 ∧
    (start_negotiation spCounterW bpCounterW agentsW mktW "B" listingW 40).1.transaction
        = none ∧
    (start_negotiation spCounterW bpCounterW agentsW mktW "B" listingW 40).2.1 = mktW ∧
    get_listing (start_negotiation spCounterW bpCounterW agentsW mktW "B" listingW 40).2.1
        "L1" = some listingW := by
  have h := C2_round_exhaustion spCounterW bpCounterW agentsW mktW "B" listingW 40 listingW
    (by norm_num)
    ⟨itemW, by decide⟩
    (fun op cb lp ma r hh =>
      ⟨{ action := .COUNTER, price := some 90, message := "I can do 90",
         reasoning := "hold out for more" }, 90, rfl, rfl, rfl, by norm_num⟩)
    (fun cp lo li sid r hh =>
      ⟨{ action := .COUNTER, price := some 45, message := "how about 45",
         reasoning := "stay within budget" }, 45, rfl, rfl, rfl, by norm_num, by decide⟩)
  exact ⟨h.1, h.2.1, h.2.2.1, h.2.2.2.1, h.2.2.2.2.1, h.2.2.2.2.2.2 (by decide)⟩

theorem sellerApply_accepted_offer (s : NegotiationState) (d : NegotiationDecision)
    (hs : s.status = .active)
    (h : (sellerApplyDecision s d).status = .accepted) :
    (sellerApplyDecision s d).current_offer = s.current_offer := by
  obtain ⟨a, pr, m, r⟩ := d
  cases a
  case ACCEPT => rfl
  case REJECT => simp [sellerApplyDecision] at h
  all_goals
    simp only [sellerApplyDecision] at h ⊢
  all_goals
    split at h
  all_goals simp_all

theorem seller_accepted_offer (sp : SellerPolicy) (agents : Agents)
    (s : NegotiationState) (hs : s.status = .active)
    (h : (seller_evaluates_offer sp agents s).status = .accepted) :
    (seller_evaluates_offer sp agents s).current_offer = s.current_offer := by
  revert h
  unfold seller_evaluates_offer
  split
  · intro h; simp at h
  · split
    · intro h; simp at h
    · intro h; exact sellerApply_accepted_offer _ _ hs h

theorem buyerApply_accepted_last (s : NegotiationState) (v : NegotiationDecision)
    (hs : s.status = .active)
    (h : (buyerApplyDecision s v).status = .accepted) :
    ((buyerApplyDecision s v).history.getLast?).map NegotiationMessage.from_agent
      = some s.buyer_id := by
  obtain ⟨a, pr, m, r⟩ := v
  cases a
  case ACCEPT => simp [buyerApplyDecision, List.getLast?_concat]
  case WALK_AWAY => simp [buyerApplyDecision] at h
  all_goals
    simp only [buyerApplyDecision] at h ⊢
  all_goals
    split at h
  all_goals simp_all

theorem buyer_accepted_last (bp : BuyerPolicy) (agents : Agents)
    (s : NegotiationState) (hs : s.status = .active)
    (h : (buyer_evaluates_counter bp agents s).status = .accepted) :
    ((buyer_evaluates_counter bp agents s).history.getLast?).map
        NegotiationMessage.from_agent = some s.buyer_id := by
  revert h
  unfold buyer_evaluates_counter
  dsimp only
  split
  · intro h; simp at h
  · intro h
    exact buyerApply_accepted_last _ _ hs h

theorem evaluate_counter_bound (llm : Option NegotiationDecision) (cap : ℚ)
    (hllm : ∀ d, llm = some d →
      d.action = .ACCEPT ∨ d.action = .WALK_AWAY ∨ d.action = .COUNTER) :
    (evaluate_counter_as_buyer llm cap).action = .ACCEPT ∨
    (evaluate_counter_as_buyer llm cap).action = .WALK_AWAY ∨
    ((evaluate_counter_as_buyer llm cap).action = .COUNTER ∧
      ∃ p, (evaluate_counter_as_buyer llm cap).price = some p ∧ p ≤ cap) := by
  cases llm with
  | none => exact Or.inr (Or.inl rfl)
  | some d =>
    unfold evaluate_counter_as_buyer
    dsimp only
    by_cases hv : decisionValid d = true
    · simp only [hv, if_true]
      rcases hllm d rfl with ha | ha | ha
      · exact Or.inl (by simp [buyerValidate, ha])
      · exact Or.inr (Or.inl (by simp [buyerValidate, ha]))
      · unfold buyerValidate
        rw [if_pos ha]
        cases hp : d.price with
        | none => exact Or.inr (Or.inl rfl)
        | some p =>
          dsimp only
          by_cases hcl : cap < p
          · rw [if_pos hcl]
            exact Or.inr (Or.inl rfl)
          · rw [if_neg hcl]
            by_cases hp0 : p ≤ 0
            · rw [if_pos hp0]
              exact Or.inr (Or.inl rfl)
            · rw [if_neg hp0]
              exact Or.inr (Or.inr ⟨ha, p, hp, not_lt.mp hcl⟩)
    · rw [if_neg hv]
      exact Or.inr (Or.inl rfl)

theorem buyerApply_route_accept (s : NegotiationState) (v : NegotiationDecision)
    (h : v.action = .ACCEPT) :
    route_buyer_decision (buyerApplyDecision s v) = "success" := by
  obtain ⟨a, pr, m, r⟩ := v
  dsimp only at h
  subst h
  simp [buyerApplyDecision, route_buyer_decision]

theorem buyerApply_route_walk (s : NegotiationState) (v : NegotiationDecision)
    (h : v.action = .WALK_AWAY) :
    route_buyer_decision (buyerApplyDecision s v) = "failure" := by
  obtain ⟨a, pr, m, r⟩ := v
  dsimp only at h
  subst h
  simp [buyerApplyDecision, route_buyer_decision]

theorem buyer_continue_offer (bp : BuyerPolicy) (agents : Agents)
    (s : NegotiationState)
    (hbp_actions : ∀ cp lo li sid2 r h d, bp cp lo li sid2 r h = some d →
      d.action = .ACCEPT ∨ d.action = .WALK_AWAY ∨ d.action = .COUNTER)
    (he : (buyer_evaluates_counter bp agents s).status ≠ .error)
    (hc : route_buyer_decision (buyer_evaluates_counter bp agents s) = "continue") :
    ∀ q, (buyer_evaluates_counter bp agents s).current_offer = some q →
      q ≤ (agents s.buyer_id).capital := by
  revert he hc
  unfold buyer_evaluates_counter
  dsimp only
  split
  · intro he _
    exact absurd rfl he
  · rename_i cp hcp
    intro he hc q hq
    rcases evaluate_counter_bound
        (bp cp (buyerLastOffer s.history s.buyer_id s.initial_offer)
          s.listing s.seller_id (s.current_round + 1) s.history)
        (agents s.buyer_id).capital
        (fun d hd => hbp_actions _ _ _ _ _ _ d hd) with hA | hW | ⟨hC, p, hp, hple⟩
    · rw [buyerApply_route_accept _ _ hA] at hc
      exact absurd hc (by simp)
    · rw [buyerApply_route_walk _ _ hW] at hc
      exact absurd hc (by simp)
    · have := (buyerApply_counter { s with current_round := s.current_round + 1 }
        _ p hC hp).2.1
      rw [this] at hq
      obtain rfl := Option.some.inj hq
      exact hple

theorem C4_loop (sp : SellerPolicy) (bp : BuyerPolicy) (agents : Agents)
    (bid sid : String)
    (hbp_actions : ∀ cp lo li sid2 r h d, bp cp lo li sid2 r h = some d →
      d.action = .ACCEPT ∨ d.action = .WALK_AWAY ∨ d.action = .COUNTER)
    (hne : bid ≠ sid) :
    ∀ (fuel : ℕ) (s : NegotiationState), s.status = .active → s.buyer_id = bid →
      s.seller_id = sid →
      (∀ q, s.current_offer = some q → q ≤ (agents bid).capital) →
      (runLoop sp bp agents fuel s).status = .accepted →
      ((runLoop sp bp agents fuel s).history.getLast?).map
        NegotiationMessage.from_agent = some sid →
      ∀ p, (runLoop sp bp agents fuel s).final_price = some p →
        p ≤ (agents bid).capital := by
  intro fuel
  induction fuel with
  | zero =>
    intro s hs _ _ _ h
    rw [runLoop_zero] at h
    rw [hs] at h
    exact absurd h (by simp)
  | succ fuel ih =>
    intro s hs hbid hsid hbound
    rw [runLoop_succ]
    dsimp only
    split
    · rename_i herr
      intro h
      rw [herr] at h
      exact absurd h (by simp)
    · rename_i herr
      split
      · intro h _ p hp
        have hfp := seller_accepted sp agents s hs h
        have hoff := seller_accepted_offer sp agents s hs h
        rw [hfp, hoff] at hp
        exact hbound p hp
      · rename_i hroute
        rw [not_not] at hroute
        have hs1 : (seller_evaluates_offer sp agents s).status = .active := by
          rw [seller_continue_status sp agents s herr hroute]
          exact hs
        obtain ⟨f1bid, f1sid, _, _, _⟩ := seller_fields sp agents s
        split
        · rename_i herr3
          intro h
          rw [herr3] at h
          exact absurd h (by simp)
        · rename_i herr3
          split
          · intro h hlast
            have hlast2 := buyer_accepted_last bp agents _ hs1 h
            rw [hlast2] at hlast
            have : (seller_evaluates_offer sp agents s).buyer_id = sid :=
              Option.some.inj hlast
            rw [f1bid, hbid] at this
            exact absurd this hne
          · rename_i hroute3
            rw [not_not] at hroute3
            have hs2 : (buyer_evaluates_counter bp agents
                (seller_evaluates_offer sp agents s)).status = .active := by
              rw [buyer_continue_status bp agents _ herr3 hroute3]
              exact hs1
            have hbound2 : ∀ q, (buyer_evaluates_counter bp agents
                (seller_evaluates_offer sp agents s)).current_offer = some q →
                q ≤ (agents bid).capital := by
              intro q hq
              have := buyer_continue_offer bp agents _ hbp_actions herr3 hroute3 q hq
              rw [f1bid, hbid] at this
              exact this
            obtain ⟨f2bid, f2sid, _, _, _⟩ :=
              buyer_fields bp agents (seller_evaluates_offer sp agents s)
            split
            · intro h
              rcases check_cases (buyer_evaluates_counter bp agents
                  (seller_evaluates_offer sp agents s)) with ⟨hst, _⟩ | ⟨heq, _⟩
              · rw [hst] at h
                exact absurd h (by simp)
              · rw [heq] at h
                rw [hs2] at h
                exact absurd h (by simp)
            · rename_i hroute4
              rw [not_not] at hroute4
              obtain ⟨heq, _⟩ := check_continue _ hroute4
              rw [heq]
              refine ih _ hs2 ?_ ?_ hbound2
              · rw [f2bid, f1bid, hbid]
              · rw [f2sid, f1sid, hsid]

/-- C4 counterexample: the buyer's precheck passes (capital 50, initial
offer 40), yet the buyer's policy accepts the seller's counter of 90 and
the session settles at a final price of 90, which exceeds the buyer's
capital of 50 as observed immediately before settlement — the engine never
affordability-checks a buyer ACCEPT. -/
theorem C4_counterexample :
    (agentsW "B").capital = 50 ∧
    (40 : ℚ) ≤ (agentsW "B").capital ∧
    (start_negotiation spCounterW bpAcceptW agentsW mktW "B" listingW 40).1.success
        = true ∧
    (start_negotiation spCounterW bpAcceptW agentsW mktW "B" listingW 40).1.final_price
        = some 90 ∧
    ¬ (90 : ℚ) ≤ (agentsW "B").capital := by decide

/-- C4 (amended): on sessions whose acceptance is made by the seller at
SELLER_EVALUATE, `final_price` never exceeds the buyer's capital as
observed before settlement, given that the coordinator admitted the session
(initial offer within capital) and the buyer's policy answers only
ACCEPT/WALK_AWAY/COUNTER — the engine enforces affordability only on buyer
counters, so the buyer-accepts path carries no such guarantee (see the
counterexample). -/
theorem C4_seller_accept_affordable (sp : SellerPolicy) (bp : BuyerPolicy)
    (agents : Agents) (bid : String) (listing : Listing) (offer : ℚ)
    (hne : bid ≠ listing.seller_id)
    (hoffcap : offer ≤ (agents bid).capital)
    (hbp_actions : ∀ cp lo li sid2 r h d, bp cp lo li sid2 r h = some d →
      d.action = .ACCEPT ∨ d.action = .WALK_AWAY ∨ d.action = .COUNTER) :
    (graphInvoke sp bp agents (initialState bid listing offer)).status = .accepted →
    ((graphInvoke sp bp agents (initialState bid listing offer)).history.getLast?).map
      NegotiationMessage.from_agent = some listing.seller_id →
    ∀ p, (graphInvoke sp bp agents (initialState bid listing offer)).final_price
        = some p → p ≤ (agents bid).capital := by
  unfold graphInvoke
  dsimp only
  split
  · rename_i herr
    intro h
    rw [herr] at h
    exact absurd h (by simp)
  · rename_i hnerr
    obtain ⟨hsbstat, hsboffer⟩ := offer_status _ hnerr
    obtain ⟨obid, osid, _, _, _⟩ := offer_fields (initialState bid listing offer)
    exact C4_loop sp bp agents bid listing.seller_id hbp_actions hne 5 _
      (by rw [hsbstat]; rfl) (by rw [obid]; rfl) (by rw [osid]; rfl)
      (fun q hq => by
        rw [hsboffer] at hq
        injection hq with h'
        rw [← h']
        exact hoffcap)

/-- C4 witness: a concrete seller-accepted session (offer 40, capital 50)
satisfies the affordability bound. -/
theorem C4_seller_accept_affordable_witness :
    (graphInvoke spAcceptW bpAcceptW agentsW (initialState "B" listingW 40)).status
        = .accepted ∧
    ((graphInvoke spAcceptW bpAcceptW agentsW
      (initialState "B" listingW 40)).history.getLast?).map
        NegotiationMessage.from_agent = some "S" ∧
    (graphInvoke spAcceptW bpAcceptW agentsW (initialState "B" listingW 40)).final_price
        = some 40 ∧
    (40 : ℚ) ≤ (agentsW "B").capital := by
  refine ⟨by decide, by decide, by decide, ?_⟩
  exact C4_seller_accept_affordable spAcceptW bpAcceptW agentsW "B" listingW 40
    (by decide) (by decide)
    (fun cp lo li sid2 r h d hd => Or.inl (by rw [← Option.some.inj hd]; rfl))
    (by decide) (by decide) 40 (by decide)

end Negotiation
